import Mathlib

/-!
Verification of the Todoist webhook relay (`app.py`).

The development shallowly embeds the data model and operations of the
webhook handler: decoded JSON payloads become the inductive type `JVal`
with Python truthiness, Python exceptions become `Except Unit`, the
mutable module-level stores (`PROCESSED_DELIVERIES`, `PROCESSED_COMPLETIONS`,
`PROCESSED_NOTES`, `timers`) become explicit state threaded through the
handler, and the outbound HTTP calls become an emitted list of `Effect`s.
External inputs (clock, HTTP fetch results, the HMAC primitive, the label
cache, configuration) are collected in an `Env` record.
-/

namespace TodoistTimer

/-- Decoded JSON values, as Python sees them after `request.get_json()`.
Numbers are modelled as integers (the payload fields the handler reads are
ids, flags and strings). -/
inductive JVal where
  | null
  | bool (b : Bool)
  | num (n : Int)
  | str (s : String)
  | arr (xs : List JVal)
  | obj (kvs : List (String × JVal))

/-- Python truthiness (`bool(v)`) of a decoded JSON value. -/
def truthy : JVal → Bool
  | .null => false
  | .bool b => b
  | .num n => n != 0
  | .str s => s ≠ ""
  | .arr xs => !xs.isEmpty
  | .obj kvs => !kvs.isEmpty

/-- Python `repr` of a decoded JSON value (strings are quoted; escaping of
quotes inside strings is not modelled). -/
def pyRepr : JVal → String
  | .null => "None"
  | .bool b => if b then "True" else "False"
  | .num n => toString n
  | .str s => "'" ++ s ++ "'"
  | .arr xs => "[" ++ String.intercalate ", " (xs.attach.map (fun x => pyRepr x.1)) ++ "]"
  | .obj kvs =>
      "\x7b" ++
        String.intercalate ", "
          (kvs.attach.map (fun kv => "'" ++ kv.1.1 ++ "': " ++ pyRepr kv.1.2)) ++
      "\x7d"
decreasing_by
  · have := List.sizeOf_lt_of_mem x.2
    simp only [JVal.arr.sizeOf_spec]
    omega
  · have h1 := List.sizeOf_lt_of_mem kv.2
    have h2 : sizeOf kv.1.2 < sizeOf kv.1 := by
      obtain ⟨⟨a, b⟩, hk⟩ := kv
      simp only [Prod.mk.sizeOf_spec]
      omega
    simp only [JVal.obj.sizeOf_spec]
    omega

/-- Python `str` of a decoded JSON value (identity on strings, `repr`
otherwise, matching CPython for these value shapes). -/
def pyStr : JVal → String
  | .str s => s
  | v => pyRepr v

/-- Lookup in the association list backing a JSON object (Python `dict`
key lookup; later duplicate keys cannot arise from JSON decoding). -/
def lookupKV : List (String × JVal) → String → Option JVal
  | [], _ => none
  | (k, v) :: rest, key => if k = key then some v else lookupKV rest key

/-- `d.get(k)`: `None` when absent, `AttributeError` when `d` is not a dict. -/
def pyGet : JVal → String → Except Unit JVal
  | .obj kvs, k => .ok ((lookupKV kvs k).getD .null)
  | _, _ => .error ()

/-- `d.get(k, default)`: the default only applies when the key is absent. -/
def pyGetD (v : JVal) (k : String) (d : JVal) : Except Unit JVal :=
  match v with
  | .obj kvs => .ok ((lookupKV kvs k).getD d)
  | _ => .error ()

/-- Python `a or b` over JSON values (returns `a` when truthy, else `b`). -/
def pyOr (a b : JVal) : JVal := if truthy a then a else b

/-- Python whitespace, the character class removed by `str.strip()`. -/
def isPySpace (c : Char) : Bool :=
  c = ' ' || c = '\t' || c = '\n' || c = '\r' || c = '\x0b' || c = '\x0c'

/-- `str.strip()` on a character list. -/
def pyStrip (l : List Char) : List Char :=
  ((l.dropWhile isPySpace).reverse.dropWhile isPySpace).reverse

/-- `str.strip()`. -/
def pyStripS (s : String) : String := String.mk (pyStrip s.toList)

/-- `str.lower()` (ASCII case mapping, all the handler meets). -/
def lowerS (s : String) : String := String.mk (s.toList.map Char.toLower)

/-- `(v or "").lower()`: empty string for falsy values, `AttributeError`
for truthy non-strings. -/
def orEmptyLower (v : JVal) : Except Unit String :=
  if truthy v then
    match v with
    | .str s => .ok (lowerS s)
    | _ => .error ()
  else .ok ""

/-- `(v or "").strip()`: empty string for falsy values, `AttributeError`
for truthy non-strings. -/
def orEmptyStrip (v : JVal) : Except Unit String :=
  if truthy v then
    match v with
    | .str s => .ok (pyStripS s)
    | _ => .error ()
  else .ok ""

/-- `str(v or "")`. -/
def strOrEmpty (v : JVal) : String :=
  if truthy v then pyStr v else ""

/-- `_as_bool(v)`: `bool(v) and str(v).lower() not in ("false","0","none","null")`. -/
def asBool (v : JVal) : Bool :=
  truthy v && !(lowerS (pyStr v) ∈ ["false", "0", "none", "null"])

/-- Python iteration over a value (`for x in v`): lists yield elements,
strings yield one-character strings, dicts yield their keys, anything else
raises `TypeError`. -/
def pyIter : JVal → Except Unit (List JVal)
  | .arr xs => .ok xs
  | .str s => .ok (s.toList.map (fun c => .str (String.mk [c])))
  | .obj kvs => .ok (kvs.map (fun kv => .str kv.1))
  | _ => .error ()

/-! ## De-dupe stores (`_dedupe_push` over an `OrderedDict` used as a set) -/

def MAX_DELIVERIES : Nat := 2000
def MAX_COMPLETIONS : Nat := 5000
def MAX_NOTES : Nat := 5000

/-- `_dedupe_push(store, key, maxlen)`: the `OrderedDict` is modelled as the
insertion-ordered list of its keys (oldest first).  Returns the updated
store and the "seen before" flag. -/
def dedupePush (store : List String) (key : String) (maxlen : Nat) :
    List String × Bool :=
  if key = "" then (store, false)
  else if key ∈ store then (store, true)
  else if maxlen < (store ++ [key]).length then ((store ++ [key]).drop 1, false)
  else (store ++ [key], false)

/-- Folding a sequence of keys through `_dedupe_push`, keeping the store. -/
def pushAll (store : List String) (ks : List String) (maxlen : Nat) : List String :=
  ks.foldl (fun s k => (dedupePush s k maxlen).1) store

/-! ## Description-snippet rewriting (the `re` patterns of the timer code) -/

/-- Value of a literal digit run. -/
def digitsToNat (ds : List Char) : Nat :=
  ds.foldl (fun a c => a * 10 + (c.toNat - '0'.toNat)) 0

/-- Greedy `\d+`: at least one digit, maximal run. -/
def parseDigits (cs : List Char) : Option (Nat × List Char) :=
  if (cs.takeWhile Char.isDigit).isEmpty then none
  else some (digitsToNat (cs.takeWhile Char.isDigit), cs.dropWhile Char.isDigit)

/-- Match a literal at the current position, returning the remainder. -/
def dropLit (lit cs : List Char) : Option (List Char) :=
  if lit.isPrefixOf cs then some (cs.drop lit.length) else none

/-- Non-greedy `.*?\)`: skip to just past the first `)` with no intervening
newline (`.` does not match a newline). -/
def afterClose : List Char → Option (List Char)
  | [] => none
  | c :: rest =>
    if c = ')' then some rest
    else if c = '\n' then none
    else afterClose rest

/-- Match `\(Total Time: (\d+)h (\d+)m (\d+)s\)` at the current position. -/
def matchTotalHere (cs : List Char) : Option (Nat × Nat × Nat) := do
  let cs ← dropLit "(Total Time: ".toList cs
  let (h, cs) ← parseDigits cs
  let cs ← dropLit "h ".toList cs
  let (m, cs) ← parseDigits cs
  let cs ← dropLit "m ".toList cs
  let (s, cs) ← parseDigits cs
  let _ ← dropLit "s)".toList cs
  pure (h, m, s)

/-- `re.search` for the total-time marker: leftmost match wins. -/
def searchTotal : List Char → Option (Nat × Nat × Nat)
  | [] => none
  | c :: rest =>
    match matchTotalHere (c :: rest) with
    | some r => some r
    | none => searchTotal rest

/-- Match either alternative of
`\(Total Time: .*?\)|\(Timer Running: .*?\)` at the current position,
returning the remainder after the match. -/
def tryMarkerHere (cs : List Char) : Option (List Char) :=
  match dropLit "(Total Time: ".toList cs with
  | some rest => afterClose rest
  | none =>
    match dropLit "(Timer Running: ".toList cs with
    | some rest => afterClose rest
    | none => none

/-- Scanner loop for the marker-stripping substitution; the fuel argument
only serves structural recursion and is always at least the number of
characters left (`removeMarkers_eq` certifies the intended recurrence). -/
def removeMarkersAux : Nat → List Char → List Char
  | 0, _ => []
  | _ + 1, [] => []
  | fuel + 1, c :: rest =>
    match tryMarkerHere (c :: rest) with
    | some r => removeMarkersAux fuel r
    | none => c :: removeMarkersAux fuel rest

/-- `re.sub(r"\(Total Time: .*?\)|\(Timer Running: .*?\)", "", s)`:
remove every non-overlapping leftmost match. -/
def removeMarkers (cs : List Char) : List Char :=
  removeMarkersAux cs.length cs

/-- Match `\(Timer Running: \d+ minutes\)` at the current position. -/
def tryRunningHere (cs : List Char) : Option (List Char) := do
  let cs ← dropLit "(Timer Running: ".toList cs
  let (_, cs) ← parseDigits cs
  let cs ← dropLit " minutes)".toList cs
  pure cs

/-- Scanner loop for the running-marker substitution, fuelled like
`removeMarkersAux`. -/
def removeRunningAux : Nat → List Char → List Char
  | 0, _ => []
  | _ + 1, [] => []
  | fuel + 1, c :: rest =>
    match tryRunningHere (c :: rest) with
    | some r => removeRunningAux fuel r
    | none => c :: removeRunningAux fuel rest

/-- `re.sub(r"\(Timer Running: \d+ minutes\)", "", s)`. -/
def removeRunning (cs : List Char) : List Char :=
  removeRunningAux cs.length cs

/-- `divmod` rendering `f"{hours}h {minutes}m {seconds}s"` of a number of
seconds. -/
def renderHMS (n : Nat) : String :=
  toString (n / 3600) ++ "h " ++ toString (n % 3600 / 60) ++ "m " ++
    toString (n % 3600 % 60) ++ "s"

/-- The stop-timer description rewrite (`webhook`, stop branch): parse any
existing total marker, add the elapsed seconds, strip both marker kinds and
append the re-rendered total. -/
def mergeTotal (desc : String) (elapsed_seconds : Nat) : String :=
  let elapsed_str := renderHMS elapsed_seconds
  let new_total_str :=
    match searchTotal desc.toList with
    | some (h, m, s) => renderHMS (h * 3600 + m * 60 + s + elapsed_seconds)
    | none => elapsed_str
  let updated := pyStripS (String.mk (removeMarkers desc.toList))
  let snippet := "(Total Time: " ++ new_total_str ++ ")"
  if updated ≠ "" then updated ++ " " ++ snippet else snippet

/-- The start-timer description rewrite (`webhook`, start branch): strip any
running marker and append a zero-elapsed one. -/
def startDesc (desc : String) : String :=
  let updated := pyStripS (String.mk (removeRunning desc.toList))
  let snippet := "(Timer Running: 0 minutes)"
  if updated ≠ "" then updated ++ " " ++ snippet else snippet

/-! ## Label coercion and completion normalization -/

/-- `isinstance(x, int)` (Python `bool` is a subclass of `int`). -/
def isIntLike : JVal → Bool
  | .bool _ => true
  | .num _ => true
  | _ => false

/-- `isinstance(x, str) and x.isdigit()` (ASCII digits; the handler only
meets ASCII label ids). -/
def isDigitStr : JVal → Bool
  | .str s => s ≠ "" && s.toList.all Char.isDigit
  | _ => false

/-- `int(x)` for the values accepted by the all-numbers branch. -/
def pyInt : JVal → Int
  | .bool b => if b then 1 else 0
  | .num n => n
  | .str s => (digitsToNat s.toList : Int)
  | _ => 0

/-- `_coerce_labels_to_names(raw_labels)` on a list argument; the label
cache (`_label_cache.get` after any TTL refresh) is a parameter.  Returns
`(label_names_lower, label_ids)`. -/
def coerceLabels (cache : Int → Option String) (raw : List JVal) :
    List String × List Int :=
  if raw.isEmpty then ([], [])
  else if raw.all (fun x => isIntLike x || isDigitStr x) then
    let ids := raw.map pyInt
    let names := ids.filterMap (fun lid =>
      match cache lid with
      | some n => if n ≠ "" then some (lowerS n) else none
      | none => none)
    (names, ids)
  else (raw.map (fun x => lowerS (pyStripS (pyStr x))), [])

/-- `_coerce_labels_to_names` applied to the raw `labels` value as the
handler does (`task.get("labels") or []`): a falsy value means no labels,
a truthy value is iterated (raising `TypeError` when not iterable). -/
def coerceLabelsVal (cache : Int → Option String) (raw : JVal) :
    Except Unit (List String × List Int) :=
  if truthy raw then do
    let xs ← pyIter raw
    pure (coerceLabels cache xs)
  else pure ([], [])

/-- The canonical completion record produced by `_normalize_completion`. -/
structure CompletionRecord where
  task_id : String
  content : String
  label_names : List String
  label_ids : List Int
  completed_at : JVal

/-- `data.get("event_data") or {}`. -/
def evOf (data : JVal) : Except Unit JVal := do
  let e ← pyGet data "event_data"
  pure (pyOr e (.obj []))

/-- `(task.get("update_intent") or "").lower()`. -/
def updateIntentOf (task : JVal) : Except Unit String := do
  let v ← pyGet task "update_intent"
  orEmptyLower v

/-- `_as_bool(task.get("checked"))`. -/
def checkedOf (task : JVal) : Except Unit Bool := do
  let v ← pyGet task "checked"
  pure (asBool v)

/-- Shared tail of the three completion shapes: content, labels and the
`completed_at`-or-`triggered_at` fallback. -/
def completionFields (cache : Int → Option String) (task data : JVal)
    (task_id : String) : Except Unit CompletionRecord := do
  let content ← orEmptyStrip (← pyGet task "content")
  let lv ← pyGet task "labels"
  let (names, ids) ← coerceLabelsVal cache (pyOr lv (.arr []))
  let ca ← pyGet task "completed_at"
  let ta ← pyGet data "triggered_at"
  pure ⟨task_id, content, names, ids, pyOr ca ta⟩

/-- `_normalize_completion(event_name, data)`: recognize the three
completion shapes and produce a canonical record, or `none`. -/
def normalizeCompletion (cache : Int → Option String) (event_name : String)
    (data : JVal) : Except Unit (Option CompletionRecord) := do
  let ev ← evOf data
  if event_name = "item:completed" then
    let task := ev
    let rec0 ← completionFields cache task data (strOrEmpty (← pyGet task "id"))
    pure (some rec0)
  else if event_name = "task:completed" then
    let task := ev
    let tid ← pyGet task "id"
    let tid2 ← pyGet task "task_id"
    let rec0 ← completionFields cache task data (strOrEmpty (pyOr tid tid2))
    pure (some rec0)
  else if event_name = "item:updated" then
    let task := ev
    let intent ← updateIntentOf task
    let checked ← checkedOf task
    let ca ← pyGet task "completed_at"
    let ta ← pyGet data "triggered_at"
    let completed_at := pyOr ca ta
    if intent = "item_completed" || (checked && truthy completed_at) then
      let tid ← pyGet task "id"
      let content ← orEmptyStrip (← pyGet task "content")
      let lv ← pyGet task "labels"
      let (names, ids) ← coerceLabelsVal cache (pyOr lv (.arr []))
      pure (some ⟨strOrEmpty tid, content, names, ids, completed_at⟩)
    else
      pure none
  else
    pure none

/-! ## Signature verification -/

/-- `validate_hmac(payload, received_hmac)`.  The HMAC-SHA256 + base64 step
is abstracted as `hmacB64`; when the shared secret is unconfigured
(`None.encode()` raises) or the computation raises, the `except` clause
returns `False`.  The function is total: no exception escapes. -/
def validate_hmac (secret : Option String)
    (hmacB64 : String → List Nat → Except Unit String)
    (payload : List Nat) (received : String) : Bool :=
  match secret with
  | none => false
  | some s =>
    match hmacB64 s payload with
    | .error _ => false
    | .ok expected => received == expected

/-! ## Handler state, environment, effects -/

/-- The mutable stores other than `PROCESSED_DELIVERIES`. -/
structure CoreState where
  completions : List String
  notes : List String
  timers : List (String × Nat)
deriving DecidableEq

/-- All module-level mutable state of the handler. -/
structure AppState where
  deliveries : List String
  core : CoreState
deriving DecidableEq

/-- Externally visible side effects (outbound HTTP requests that mutate
the outside world). -/
inductive Effect where
  | comment (task_id content : String)
  | datapoint (value : Int) (comment : String) (timestamp : Option Int) (requestid : String)
  | updateDescription (task_id description : String)
deriving DecidableEq

/-- The external world and configuration: clock, fetch results, HMAC
primitive, Beeminder credentials and outcome, ISO-timestamp parser, label
cache, trigger-label setting. -/
structure Env where
  secret : Option String
  hmacB64 : String → List Nat → Except Unit String
  now : Nat
  getDescription : String → Option String
  getTaskContent : String → Option String
  beeminderCreds : Bool
  beeminderOk : Bool
  parseIso : String → Option Int
  labelCache : Int → Option String
  triggerRaw : String

/-- One inbound POST: raw body bytes, the signature header (empty when
absent), the delivery-id header, and the parsed JSON body
(`request.get_json(silent=True)`). -/
structure Request where
  data : List Nat
  hmacHeader : String
  deliveryId : Option String
  body : Option JVal

/-- `TRIGGER_LABEL_NAME`. -/
def triggerName (env : Env) : String := lowerS env.triggerRaw

/-- `TRIGGER_LABEL_ID` (`int(raw) if raw.isdigit() else None`). -/
def triggerId (env : Env) : Option Int :=
  if env.triggerRaw ≠ "" && env.triggerRaw.toList.all Char.isDigit
  then some (digitsToNat env.triggerRaw.toList : Int) else none

/-- `iso_to_unix(ts)`: falsy values and non-strings (whose `.replace`
raises, caught inside) give `None`; strings go through
`datetime.fromisoformat` (abstracted as `parse`). -/
def iso_to_unix (parse : String → Option Int) (v : JVal) : Option Int :=
  if truthy v then
    match v with
    | .str s => parse (s.replace "Z" "+00:00")
    | _ => none
  else none

/-- `post_beeminder_datapoint`: no request is even attempted when the
credentials are missing; otherwise the datapoint request is issued and
succeeds or fails per the environment. -/
def postBeeminder (env : Env) (value : Int) (comment : String)
    (timestamp : Option Int) (requestid : String) : Bool × List Effect :=
  if env.beeminderCreds then
    (env.beeminderOk, [.datapoint value comment timestamp requestid])
  else (false, [])

/-- The trigger-label test of the completion branch
(`TRIGGER_LABEL_NAME in label_names or TRIGGER_LABEL_ID in label_ids`). -/
def labelMatch (env : Env) (rec0 : CompletionRecord) : Bool :=
  rec0.label_names.contains (triggerName env) ||
    (match triggerId env with
     | some i => rec0.label_ids.contains i
     | none => false)

/-- `f"{task_id}:{completed_at or ''}"`. -/
def completionKey (rec0 : CompletionRecord) : String :=
  rec0.task_id ++ ":" ++ (if truthy rec0.completed_at then pyStr rec0.completed_at else "")

/-- The completion branch of `webhook` (everything after
`_normalize_completion` returned a record). -/
def completionPath (env : Env) (cs : CoreState) (rec0 : CompletionRecord) :
    Nat × CoreState × List Effect :=
  let ts := iso_to_unix env.parseIso rec0.completed_at
  let ckey := completionKey rec0
  let (comps, dup) := dedupePush cs.completions ckey MAX_COMPLETIONS
  let cs1 : CoreState := { cs with completions := comps }
  if dup then (200, cs1, [])
  else
    let ack : List Effect :=
      if rec0.task_id ≠ "" then
        [.comment rec0.task_id
          (if rec0.content ≠ "" then "Task completed ✅ — " ++ rec0.content
           else "Task completed ✅")]
      else []
    if labelMatch env rec0 then
      let bc := "Todoist: " ++ rec0.content
      let (ok, dp) := postBeeminder env 1 bc ts ("complete:" ++ ckey)
      (200, cs1, ack ++ dp ++ [.comment rec0.task_id (if ok then "Counted ✅" else "Failed to count ❌")])
    else (200, cs1, ack)

/-- Python substring test (`needle in hay`). -/
def containsSub : List Char → List Char → Bool
  | needle, [] => needle.isEmpty
  | needle, c :: rest => needle.isPrefixOf (c :: rest) || containsSub needle rest

/-- Lookup in the `timers` dict (keys are unique in reachable states). -/
def lookupTimer : List (String × Nat) → String → Option Nat
  | [], _ => none
  | (k, v) :: rest, key => if k = key then some v else lookupTimer rest key

/-- `del timers[key]`: remove the binding. -/
def deleteTimer : List (String × Nat) → String → List (String × Nat)
  | [], _ => []
  | (k, v) :: rest, key => if k = key then rest else (k, v) :: deleteTimer rest key

/-- The `note:added` branch of `webhook`. -/
def notePath (env : Env) (cs : CoreState) (body event_data : JVal) :
    Except Unit (Nat × CoreState × List Effect) := do
  let item ← pyGetD event_data "item" (.obj [])
  let task_id ← pyGet item "id"
  let user_id ← pyGet item "user_id"
  let note_id ← pyGet event_data "id"
  let lowered ← orEmptyLower (← pyGet event_data "content")
  let pa ← pyGet event_data "posted_at"
  let pb ← pyGet event_data "posted"
  let tg ← pyGet body "triggered_at"
  let ts := iso_to_unix env.parseIso (pyOr pa (pyOr pb tg))
  if !truthy task_id || !truthy user_id then
    pure (400, cs, [])
  else
    let nkey := match note_id with
      | .null => ""
      | v => pyStr v
    let (notes1, dup) := dedupePush cs.notes nkey MAX_NOTES
    let cs1 : CoreState := { cs with notes := notes1 }
    if dup then pure (200, cs1, [])
    else if pyStripS lowered = "beeminder" || pyStripS lowered = "bm" then
      let title := match env.getTaskContent (pyStr task_id) with
        | some t => if t ≠ "" then t else "(untitled task)"
        | none => "(untitled task)"
      let reqid :=
        if truthy note_id then "note:" ++ pyStr note_id
        else "note:" ++ pyStr task_id ++ ":" ++
          (match ts with
           | some t => if t ≠ 0 then toString t else ""
           | none => "")
      let (ok, dp) := postBeeminder env 1 ("Todoist (comment): " ++ title) ts reqid
      pure (200, cs1, dp ++ [.comment (pyStr task_id) (if ok then "Counted ✅" else "Failed to count ❌")])
    else
      let timer_key := pyStr user_id ++ ":" ++ pyStr task_id
      if containsSub "start timer".toList lowered.toList then
        match lookupTimer cs1.timers timer_key with
        | some _ => pure (200, cs1, [])
        | none =>
          let cs2 : CoreState := { cs1 with timers := cs1.timers ++ [(timer_key, env.now)] }
          match env.getDescription (pyStr task_id) with
          | none => pure (200, cs2, [])
          | some d => pure (200, cs2, [.updateDescription (pyStr task_id) (startDesc d)])
      else if containsSub "stop timer".toList lowered.toList then
        match lookupTimer cs1.timers timer_key with
        | none => pure (200, cs1, [.comment (pyStr task_id) "No timer found to stop."])
        | some start =>
          let cs2 : CoreState := { cs1 with timers := deleteTimer cs1.timers timer_key }
          let elapsed := env.now - start
          let e1 : Effect := .comment (pyStr task_id) ("Elapsed time: " ++ renderHMS elapsed)
          match env.getDescription (pyStr task_id) with
          | none => pure (200, cs2, [e1])
          | some d =>
            pure (200, cs2, [e1, .updateDescription (pyStr task_id) (mergeTotal d elapsed)])
      else pure (200, cs1, [])

/-- `request.get_json(silent=True) or {}`. -/
def bodyOf (req : Request) : JVal :=
  match req.body with
  | none => .obj []
  | some v => if truthy v then v else .obj []

/-- The handler body after signature check and delivery de-dupe; a thrown
exception surfaces as `.error` and is answered with 500 by `webhook`. -/
def webhookBody (env : Env) (cs : CoreState) (req : Request) :
    Except Unit (Nat × CoreState × List Effect) := do
  let body := bodyOf req
  let event_name ← orEmptyStrip (← pyGet body "event_name")
  let ed ← pyGet body "event_data"
  let event_data := pyOr ed (.obj [])
  let nrm ← normalizeCompletion env.labelCache event_name body
  match nrm with
  | some rec0 => pure (completionPath env cs rec0)
  | none =>
    if event_name = "note:added" then notePath env cs body event_data
    else pure (200, cs, [])

/-- The `/webhook` endpoint: signature check, delivery de-dupe, then the
event dispatch, with the top-level `except` answering 500.  Returns the
HTTP status, the final state, and the emitted side effects. -/
def webhook (env : Env) (st : AppState) (req : Request) :
    Nat × AppState × List Effect :=
  if req.hmacHeader = "" || !validate_hmac env.secret env.hmacB64 req.data req.hmacHeader then
    (401, st, [])
  else
    let (ds, dup) := dedupePush st.deliveries (req.deliveryId.getD "") MAX_DELIVERIES
    if dup then (200, ⟨ds, st.core⟩, [])
    else
      match webhookBody env st.core req with
      | .ok (code, cs, effs) => (code, ⟨ds, cs⟩, effs)
      | .error _ => (500, ⟨ds, st.core⟩, [])

/-! ## Concrete fixtures used by witnesses and counterexamples -/

/-- A fully concrete external environment. -/
def envA : Env :=
  { secret := some "s", hmacB64 := fun _ _ => .ok "sig", now := 3088,
    getDescription := fun _ => some "Some other info (Total Time: 0h 49m 41s)",
    getTaskContent := fun _ => none, beeminderCreds := true, beeminderOk := true,
    parseIso := fun _ => none, labelCache := fun _ => none, triggerRaw := "beeminder" }

/-- Fresh state: nothing deduplicated, no timers. -/
def stEmpty : AppState := ⟨[], ⟨[], [], []⟩⟩

/-- State with one running timer for actor 67890 on task 12345, started at
instant 0. -/
def stTimer : AppState := ⟨[], ⟨[], [], [("67890:12345", 0)]⟩⟩

/-- A `note:added` request whose comment body is `start timer`. -/
def reqStart (uid tid : String) : Request :=
  { data := [], hmacHeader := "sig", deliveryId := none,
    body := some (.obj [("event_name", .str "note:added"),
      ("event_data", .obj [("content", .str "start timer"),
        ("item", .obj [("id", .str tid), ("user_id", .str uid)])])]) }

/-- A `note:added` request whose comment body is `Stop Timer`. -/
def reqStop (uid tid : String) : Request :=
  { data := [], hmacHeader := "sig", deliveryId := none,
    body := some (.obj [("event_name", .str "note:added"),
      ("event_data", .obj [("content", .str "Stop Timer"),
        ("item", .obj [("id", .str tid), ("user_id", .str uid)])])]) }

/-- An `item:completed` request whose item has the trigger label but no id. -/
def reqNoId : Request :=
  { data := [], hmacHeader := "sig", deliveryId := some "d5",
    body := some (.obj [("event_name", .str "item:completed"),
      ("event_data", .obj [("labels", .arr [.str "beeminder"]), ("content", .str "X")])]) }

/-- A request whose JSON body has no `event_name` field. -/
def reqNoEventName : Request :=
  { data := [], hmacHeader := "sig", deliveryId := some "d6",
    body := some (.obj [("foo", .num 1)]) }

/-- An innocuous request with a delivery id (event name the handler ignores). -/
def reqPing (d : String) : Request :=
  { data := [], hmacHeader := "sig", deliveryId := some d,
    body := some (.obj [("event_name", .str "ping")]) }

/-- An `item:updated` payload with `checked=false` but an
`update_intent == "item_completed"` marker. -/
def payloadC4 : JVal :=
  .obj [("event_data", .obj [("update_intent", .str "item_completed"),
    ("checked", .bool false), ("id", .str "42"), ("content", .str "T")])]

/-- The effects of a fresh timer start: a description rewrite when the
task's description could be fetched, nothing otherwise. -/
def startEffects (env : Env) (tid : String) : List Effect :=
  match env.getDescription tid with
  | none => []
  | some d => [.updateDescription tid (startDesc d)]

/-- `envA` with a different clock, for the second request of a scenario. -/
def envB : Env := { envA with now := 5000 }

/-- The `event_data` object carried by `reqStart`. -/
def evdStart (uid tid : String) : JVal :=
  .obj [("content", .str "start timer"),
        ("item", .obj [("id", .str tid), ("user_id", .str uid)])]

/-- The `event_data` object carried by `reqStop`. -/
def evdStop (uid tid : String) : JVal :=
  .obj [("content", .str "Stop Timer"),
        ("item", .obj [("id", .str tid), ("user_id", .str uid)])]

/-! ## Lemmas about the regex scanners -/

theorem afterClose_length_lt {cs rest : List Char} (h : afterClose cs = some rest) :
    rest.length < cs.length := by
  induction cs with
  | nil => simp [afterClose] at h
  | cons c cs ih =>
    rw [afterClose] at h
    split at h
    · cases h
      simp only [List.length_cons]
      omega
    · split at h
      · cases h
      · have := ih h
        simp only [List.length_cons]
        omega

theorem dropLit_length_le {lit cs rest : List Char} (h : dropLit lit cs = some rest) :
    rest.length ≤ cs.length := by
  unfold dropLit at h
  split at h
  · cases h; simp
  · cases h

theorem tryMarkerHere_length_lt {cs rest : List Char} (h : tryMarkerHere cs = some rest) :
    rest.length < cs.length := by
  unfold tryMarkerHere at h
  split at h
  · rename_i r hr
    calc rest.length < r.length := afterClose_length_lt h
    _ ≤ cs.length := dropLit_length_le hr
  · split at h
    · rename_i r hr
      calc rest.length < r.length := afterClose_length_lt h
      _ ≤ cs.length := dropLit_length_le hr
    · cases h

theorem removeMarkersAux_congr : ∀ (f1 f2 : Nat) (cs : List Char),
    cs.length ≤ f1 → cs.length ≤ f2 →
    removeMarkersAux f1 cs = removeMarkersAux f2 cs := by
  intro f1
  induction f1 with
  | zero =>
    intro f2 cs h1 _
    have : cs = [] := List.length_eq_zero.mp (Nat.le_zero.mp h1)
    subst this
    cases f2 <;> rfl
  | succ f1 ih =>
    intro f2 cs h1 h2
    cases cs with
    | nil => cases f2 <;> rfl
    | cons c rest =>
      cases f2 with
      | zero => simp at h2
      | succ f2 =>
        show (match tryMarkerHere (c :: rest) with
              | some r => removeMarkersAux f1 r
              | none => c :: removeMarkersAux f1 rest) =
            (match tryMarkerHere (c :: rest) with
              | some r => removeMarkersAux f2 r
              | none => c :: removeMarkersAux f2 rest)
        cases hm : tryMarkerHere (c :: rest) with
        | some r =>
          have hlt := tryMarkerHere_length_lt hm
          simp only [List.length_cons] at h1 h2 hlt
          exact ih f2 r (by omega) (by omega)
        | none =>
          simp only [List.length_cons] at h1 h2
          rw [ih f2 rest (by omega) (by omega)]

/-- The fuel-free recurrence the scanner satisfies. -/
theorem removeMarkers_eq (cs : List Char) :
    removeMarkers cs =
      match tryMarkerHere cs with
      | some r => removeMarkers r
      | none =>
        match cs with
        | [] => []
        | c :: rest => c :: removeMarkers rest := by
  cases cs with
  | nil => rfl
  | cons c rest =>
    show (match tryMarkerHere (c :: rest) with
          | some r => removeMarkersAux rest.length r
          | none => c :: removeMarkersAux rest.length rest) = _
    cases hm : tryMarkerHere (c :: rest) with
    | some r =>
      have hlt := tryMarkerHere_length_lt hm
      simp only [List.length_cons] at hlt
      exact removeMarkersAux_congr rest.length r.length r (by omega) le_rfl
    | none => rfl

theorem parseDigits_length_le {cs : List Char} {n : Nat} {rest : List Char}
    (h : parseDigits cs = some (n, rest)) : rest.length ≤ cs.length := by
  unfold parseDigits at h
  split at h
  · cases h
  · cases h
    simpa using (List.dropWhile_sublist (l := cs) Char.isDigit).length_le

theorem tryRunningHere_length_lt {cs rest : List Char} (h : tryRunningHere cs = some rest) :
    rest.length < cs.length := by
  unfold tryRunningHere at h
  simp only [Option.bind_eq_bind, Option.bind_eq_some] at h
  obtain ⟨r1, hr1, h⟩ := h
  obtain ⟨⟨n, r2⟩, hr2, h⟩ := h
  obtain ⟨r3, hr3, h⟩ := h
  simp only [Option.pure_def, Option.some.injEq] at h
  subst h
  have e1 := dropLit_length_le hr1
  have e2 : r2.length ≤ r1.length := parseDigits_length_le hr2
  have hr3' : dropLit " minutes)".toList r2 = some r3 := hr3
  unfold dropLit at hr3'
  split at hr3'
  · rename_i hp
    have hle := (List.isPrefixOf_iff_prefix.mp hp).length_le
    cases hr3'
    simp only [List.length_drop]
    have hq : 0 < " minutes)".toList.length := by decide
    omega
  · cases hr3'

theorem removeRunningAux_congr : ∀ (f1 f2 : Nat) (cs : List Char),
    cs.length ≤ f1 → cs.length ≤ f2 →
    removeRunningAux f1 cs = removeRunningAux f2 cs := by
  intro f1
  induction f1 with
  | zero =>
    intro f2 cs h1 _
    have : cs = [] := List.length_eq_zero.mp (Nat.le_zero.mp h1)
    subst this
    cases f2 <;> rfl
  | succ f1 ih =>
    intro f2 cs h1 h2
    cases cs with
    | nil => cases f2 <;> rfl
    | cons c rest =>
      cases f2 with
      | zero => simp at h2
      | succ f2 =>
        show (match tryRunningHere (c :: rest) with
              | some r => removeRunningAux f1 r
              | none => c :: removeRunningAux f1 rest) =
            (match tryRunningHere (c :: rest) with
              | some r => removeRunningAux f2 r
              | none => c :: removeRunningAux f2 rest)
        cases hm : tryRunningHere (c :: rest) with
        | some r =>
          have hlt := tryRunningHere_length_lt hm
          simp only [List.length_cons] at h1 h2 hlt
          exact ih f2 r (by omega) (by omega)
        | none =>
          simp only [List.length_cons] at h1 h2
          rw [ih f2 rest (by omega) (by omega)]

/-- The fuel-free recurrence of the running-marker scanner. -/
theorem removeRunning_eq (cs : List Char) :
    removeRunning cs =
      match tryRunningHere cs with
      | some r => removeRunning r
      | none =>
        match cs with
        | [] => []
        | c :: rest => c :: removeRunning rest := by
  cases cs with
  | nil => rfl
  | cons c rest =>
    show (match tryRunningHere (c :: rest) with
          | some r => removeRunningAux rest.length r
          | none => c :: removeRunningAux rest.length rest) = _
    cases hm : tryRunningHere (c :: rest) with
    | some r =>
      have hlt := tryRunningHere_length_lt hm
      simp only [List.length_cons] at hlt
      exact removeRunningAux_congr rest.length r.length r (by omega) le_rfl
    | none => rfl

/-! ## Lemmas about the de-dupe store -/

theorem dedupePush_empty_key (s : List String) (m : Nat) :
    dedupePush s "" m = (s, false) := by
  simp [dedupePush]

theorem dedupePush_mem {k : String} {s : List String} (m : Nat)
    (hk : k ≠ "") (hmem : k ∈ s) : dedupePush s k m = (s, true) := by
  simp [dedupePush, hk, hmem]

theorem dedupePush_fresh {k : String} {s : List String} {m : Nat}
    (hk : k ≠ "") (hmem : k ∉ s) : (dedupePush s k m).2 = false := by
  unfold dedupePush
  rw [if_neg hk, if_neg hmem]
  split <;> rfl

theorem mem_dedupePush {k : String} {s : List String} {m : Nat}
    (hk : k ≠ "") (hm : 1 ≤ m) : k ∈ (dedupePush s k m).1 := by
  unfold dedupePush
  by_cases hmem : k ∈ s
  · rw [if_neg hk, if_pos hmem]
    exact hmem
  · rw [if_neg hk, if_neg hmem]
    split
    · rename_i hlen
      cases s with
      | nil => simp at hlen; omega
      | cons a s' => simp
    · simp

theorem dedupePush_length_le {s : List String} {m : Nat} (k : String)
    (h : s.length ≤ m) : ((dedupePush s k m).1).length ≤ m := by
  unfold dedupePush
  split
  · simpa
  · split
    · simpa
    · split
      · rename_i hlen
        simp only [List.length_drop, List.length_append, List.length_cons,
          List.length_nil] at hlen ⊢
        omega
      · rename_i hlen
        simp only [List.length_append, List.length_cons, List.length_nil] at hlen ⊢
        omega

/-- The handler state after a request that passed the signature check always
records the delivery id. -/
theorem webhook_deliveries (env : Env) (st : AppState) (req : Request)
    (hh : req.hmacHeader ≠ "")
    (hv : validate_hmac env.secret env.hmacB64 req.data req.hmacHeader = true) :
    (webhook env st req).2.1.deliveries =
      (dedupePush st.deliveries (req.deliveryId.getD "") MAX_DELIVERIES).1 := by
  unfold webhook
  simp only [hh, hv, Bool.not_true, Bool.or_false, decide_False, Bool.false_or,
    if_false, ite_false, Bool.false_eq_true]
  rcases hdp : dedupePush st.deliveries (req.deliveryId.getD "") MAX_DELIVERIES with ⟨ds, dup⟩
  cases dup
  · simp only [Bool.false_eq_true, if_false, ite_false]
    rcases hwb : webhookBody env st.core req with e | ⟨code, cs, effs⟩ <;> simp
  · simp

/-! ## C1: replaying a delivery id -/

/-- C1: after the webhook has processed a request carrying a non-empty
delivery identifier D (signature accepted), a second signed request with
the same D returns 200, leaves the state unchanged, and issues no side
effect at all: the delivery de-dupe store short-circuits it. -/
theorem claim_C1_duplicate_delivery_suppressed (env : Env) (st : AppState)
    (req1 req2 : Request) (D : String) (hD : D ≠ "")
    (h1d : req1.deliveryId = some D) (h2d : req2.deliveryId = some D)
    (h1h : req1.hmacHeader ≠ "")
    (h1v : validate_hmac env.secret env.hmacB64 req1.data req1.hmacHeader = true)
    (h2h : req2.hmacHeader ≠ "")
    (h2v : validate_hmac env.secret env.hmacB64 req2.data req2.hmacHeader = true) :
    webhook env (webhook env st req1).2.1 req2 = (200, (webhook env st req1).2.1, []) := by
  have hmem : D ∈ (webhook env st req1).2.1.deliveries := by
    rw [webhook_deliveries env st req1 h1h h1v, h1d]
    exact mem_dedupePush hD (by norm_num [MAX_DELIVERIES])
  set st1 := (webhook env st req1).2.1 with hst1
  clear_value st1
  unfold webhook
  simp only [h2h, h2v, Bool.not_true, Bool.or_false, decide_False, Bool.false_or,
    if_false, ite_false, Bool.false_eq_true, h2d, Option.getD_some]
  rw [dedupePush_mem MAX_DELIVERIES hD hmem]
  simp

/-- Witness for C1 at a concrete environment, state and request pair. -/
theorem claim_C1_witness :
    ("d1" : String) ≠ "" ∧
      webhook envA (webhook envA stEmpty (reqPing "d1")).2.1 (reqPing "d1") =
        (200, (webhook envA stEmpty (reqPing "d1")).2.1, []) :=
  ⟨by decide,
   claim_C1_duplicate_delivery_suppressed envA stEmpty (reqPing "d1") (reqPing "d1") "d1"
     (by decide) rfl rfl (by decide) rfl (by decide) rfl⟩

/-! ## C2: `seen_before` twice -/

/-- C2 counterexample: the claim quantifies over every dedupe store, but on
a store already holding the non-empty key "k" the first call returns
`true`, not `false`. -/
theorem claim_C2_counterexample :
    ("k" : String) ≠ "" ∧ dedupePush ["k"] "k" 2000 = (["k"], true) := by
  constructor
  · decide
  · rfl

/-- C2 amended: for every store state that does not already contain the
non-empty key K (and a positive size bound, as all three stores of the
program have), `seen_before` returns `false` then `true`; with the empty
key it returns `false` every time and leaves any store unchanged. -/
theorem claim_C2_amended (s : List String) (k : String) (m : Nat)
    (hk : k ≠ "") (hm : 1 ≤ m) (hs : k ∉ s) :
    (dedupePush s k m).2 = false ∧
      dedupePush (dedupePush s k m).1 k m = ((dedupePush s k m).1, true) ∧
      (∀ (t : List String) (n : Nat), dedupePush t "" n = (t, false)) := by
  refine ⟨dedupePush_fresh hk hs, ?_, fun t n => dedupePush_empty_key t n⟩
  exact dedupePush_mem m hk (mem_dedupePush hk hm)

/-- Witness for C2 (amended) on a concrete store and key. -/
theorem claim_C2_witness :
    (("b" : String) ≠ "" ∧ ("b" : String) ∉ (["a"] : List String)) ∧
      ((dedupePush ["a"] "b" 2000).2 = false ∧
        dedupePush (dedupePush ["a"] "b" 2000).1 "b" 2000 =
          ((dedupePush ["a"] "b" 2000).1, true) ∧
        (∀ (t : List String) (n : Nat), dedupePush t "" n = (t, false))) :=
  ⟨⟨by decide, by decide⟩,
   claim_C2_amended ["a"] "b" 2000 (by decide) (by norm_num) (by decide)⟩

/-! ## C3: FIFO eviction -/

/-- Folding fresh distinct non-empty keys through `_dedupe_push` keeps the
suffix window of size `M` of the concatenated key sequence. -/
theorem pushAll_char (ks : List String) : ∀ (store : List String) (M : Nat),
    store.length ≤ M → (store ++ ks).Nodup → "" ∉ ks →
    pushAll store ks M = (store ++ ks).drop ((store ++ ks).length - M) := by
  induction ks with
  | nil =>
    intro store M hlen _ _
    simp only [pushAll, List.foldl_nil, List.append_nil]
    rw [Nat.sub_eq_zero_of_le hlen, List.drop_zero]
  | cons k ks ih =>
    intro store M hlen hnd hne
    have hk : k ≠ "" := by
      intro h
      exact hne (h ▸ List.mem_cons_self k ks)
    have hkstore : k ∉ store := by
      rcases List.nodup_append.mp hnd with ⟨_, _, hdisj⟩
      intro hmem
      exact hdisj hmem (List.mem_cons_self k ks)
    have hstep : pushAll store (k :: ks) M = pushAll (dedupePush store k M).1 ks M := rfl
    have hpush : (dedupePush store k M).1 =
        if M < (store ++ [k]).length then (store ++ [k]).drop 1 else store ++ [k] := by
      unfold dedupePush
      rw [if_neg hk, if_neg hkstore]
      split <;> rfl
    have hassoc : store ++ k :: ks = (store ++ [k]) ++ ks := by simp
    have hne' : "" ∉ ks := fun h => hne (List.mem_cons_of_mem k h)
    by_cases hM : M < (store ++ [k]).length
    · have hsl : store.length = M := by
        simp only [List.length_append, List.length_cons, List.length_nil] at hM
        omega
      rw [hstep, hpush, if_pos hM]
      have hsub : ((store ++ [k]).drop 1 ++ ks).Sublist ((store ++ [k]) ++ ks) :=
        List.Sublist.append_right (List.drop_sublist 1 (store ++ [k])) ks
      have hnd' : ((store ++ [k]).drop 1 ++ ks).Nodup :=
        hsub.nodup (hassoc ▸ hnd)
      have hlen' : ((store ++ [k]).drop 1).length ≤ M := by
        simp only [List.length_drop, List.length_append, List.length_cons, List.length_nil]
        omega
      rw [ih ((store ++ [k]).drop 1) M hlen' hnd' hne']
      have hd : (store ++ [k]).drop 1 ++ ks = ((store ++ [k]) ++ ks).drop 1 :=
        (List.drop_append_of_le_length (by simp)).symm
      rw [hd, List.drop_drop, hassoc]
      congr 1
      simp only [List.length_drop, List.length_append, List.length_cons, List.length_nil]
      omega
    · rw [hstep, hpush, if_neg hM]
      have hlen' : (store ++ [k]).length ≤ M := by omega
      rw [ih (store ++ [k]) M hlen' (by rw [← hassoc]; exact hnd) hne']
      rw [← hassoc]

/-- C3: inserting M+1 distinct non-empty keys into an empty dedupe store of
maximum size M leaves exactly the last M keys: the store is the tail of the
sequence, has size M, the first key has been evicted (FIFO), and no prefix
of the insertion sequence ever pushes the size above M. -/
theorem claim_C3_fifo_eviction (M : Nat) (ks : List String)
    (hnd : ks.Nodup) (hne : "" ∉ ks) (hlen : ks.length = M + 1) :
    pushAll [] ks M = ks.drop 1 ∧
      (pushAll [] ks M).length = M ∧
      (∀ k0, ks.head? = some k0 → k0 ∉ pushAll [] ks M) ∧
      (∀ i, (pushAll [] (ks.take i) M).length ≤ M) := by
  have hchar : pushAll [] ks M = ks.drop 1 := by
    rw [pushAll_char ks [] M (by simp) (by simpa) hne]
    simp [hlen]
  refine ⟨hchar, ?_, ?_, ?_⟩
  · rw [hchar]
    simp [hlen]
  · intro k0 hk0
    rw [hchar]
    cases ks with
    | nil => simp at hk0
    | cons a ks' =>
      simp only [List.head?_cons, Option.some.injEq] at hk0
      subst hk0
      simp only [List.drop_succ_cons, List.drop_zero]
      exact (List.nodup_cons.mp hnd).1
  · intro i
    have hndi : (ks.take i).Nodup := hnd.sublist (List.take_sublist i ks)
    have hnei : "" ∉ ks.take i := fun h => hne (List.mem_of_mem_take h)
    rw [pushAll_char (ks.take i) [] M (by simp) (by simpa) hnei]
    simp only [List.nil_append, List.length_drop]
    omega

/-- Witness for C3 with M = 2 and keys a, b, c. -/
theorem claim_C3_witness :
    ((["a", "b", "c"] : List String).Nodup ∧ ("" : String) ∉ (["a", "b", "c"] : List String)) ∧
      (pushAll [] ["a", "b", "c"] 2 = ["b", "c"] ∧
        (pushAll [] ["a", "b", "c"] 2).length = 2 ∧
        (∀ k0, (["a", "b", "c"] : List String).head? = some k0 → k0 ∉ pushAll [] ["a", "b", "c"] 2) ∧
        (∀ i, (pushAll [] ((["a", "b", "c"] : List String).take i) 2).length ≤ 2)) := by
  refine ⟨⟨by decide, by decide⟩, ?_⟩
  have h := claim_C3_fifo_eviction 2 ["a", "b", "c"] (by decide) (by decide) rfl
  simpa using h

/-! ## C7: the signature verifier fails closed -/

/-- C7: `validate_hmac` returns `false` whenever the shared secret is
unconfigured (the `None.encode()` step raises and is caught) or the HMAC
computation raises; being a total `Bool`-valued function, it propagates no
exception to its caller. -/
theorem claim_C7_fail_closed (hmacB64 : String → List Nat → Except Unit String)
    (payload : List Nat) (received : String) :
    validate_hmac none hmacB64 payload received = false ∧
      (∀ (s : String) (e : Unit), hmacB64 s payload = .error e →
        validate_hmac (some s) hmacB64 payload received = false) := by
  refine ⟨rfl, fun s e h => ?_⟩
  simp only [validate_hmac]
  rw [h]

/-- Witness for C7 with a concrete always-raising HMAC computation. -/
theorem claim_C7_witness :
    (fun (_ : String) (_ : List Nat) => (Except.error () : Except Unit String)) "s" [] =
        .error () ∧
      validate_hmac (some "s") (fun _ _ => .error ()) [] "x" = false :=
  ⟨rfl, (claim_C7_fail_closed (fun _ _ => .error ()) [] "x").2 "s" () rfl⟩

/-! ## C10: a mixed label list is treated entirely as names -/

/-- C10: whenever the raw label list has at least one element that is
neither an integer (Python `bool` included) nor an all-digit string,
`_coerce_labels_to_names` treats every element as a name: it returns all
elements stripped and lower-cased as names and an empty id list, so no
numeric trigger-label id can ever match such a list. -/
theorem claim_C10_mixed_labels (cache : Int → Option String) (raw : List JVal)
    (h : ∃ x ∈ raw, isIntLike x = false ∧ isDigitStr x = false) :
    coerceLabels cache raw = (raw.map (fun x => lowerS (pyStripS (pyStr x))), []) ∧
      ∀ i : Int, i ∉ (coerceLabels cache raw).2 := by
  obtain ⟨x, hx, h1, h2⟩ := h
  have hne : raw.isEmpty = false := by
    cases raw with
    | nil => cases hx
    | cons a l => rfl
  have hall : raw.all (fun x => isIntLike x || isDigitStr x) = false := by
    rw [List.all_eq_false]
    exact ⟨x, hx, by simp [h1, h2]⟩
  have hmain : coerceLabels cache raw =
      (raw.map (fun x => lowerS (pyStripS (pyStr x))), []) := by
    unfold coerceLabels
    rw [hne, hall]
    rfl
  exact ⟨hmain, fun i => by rw [hmain]; simp⟩

/-- Witness for C10 on a mixed list of a name and a numeric-string id. -/
theorem claim_C10_witness :
    (isIntLike (JVal.str "Beeminder") = false ∧ isDigitStr (JVal.str "Beeminder") = false) ∧
      (coerceLabels (fun _ => none) [.str "Beeminder", .str "42"] = (["beeminder", "42"], []) ∧
        ∀ i : Int, i ∉ (coerceLabels (fun _ => none) [.str "Beeminder", .str "42"]).2) :=
  ⟨⟨rfl, rfl⟩, by
    have h := claim_C10_mixed_labels (fun _ => none) [.str "Beeminder", .str "42"]
      ⟨.str "Beeminder", List.mem_cons_self _ _, rfl, rfl⟩
    exact ⟨by rw [h.1]; rfl, h.2⟩⟩

/-! ## C4: `item:updated` with `checked=false` -/

/-- C4 counterexample: an `item:updated` payload with `checked=false` but
`update_intent="item_completed"` yields a completion record, contradicting
"no completion record regardless of other fields (including any
update_intent marker)". -/
theorem claim_C4_counterexample :
    asBool (JVal.bool false) = false ∧
      normalizeCompletion (fun _ => none) "item:updated" payloadC4 =
        .ok (some ⟨"42", "T", [], [], .null⟩) :=
  ⟨rfl, rfl⟩

theorem pyGet_ok_obj {v : JVal} {k : String} {x : JVal} (h : pyGet v k = .ok x) :
    ∃ kvs, v = .obj kvs := by
  cases v
  case obj kvs => exact ⟨kvs, rfl⟩
  all_goals simp [pyGet] at h

theorem evOf_ok_obj {data ev : JVal} (h : evOf data = .ok ev) :
    ∃ kvs, data = .obj kvs := by
  unfold evOf at h
  cases hv : pyGet data "event_data" with
  | error e => rw [hv] at h; simp [Bind.bind, Except.bind] at h
  | ok x => exact pyGet_ok_obj hv

theorem updateIntentOf_ok_obj {v : JVal} {s : String} (h : updateIntentOf v = .ok s) :
    ∃ kvs, v = .obj kvs := by
  unfold updateIntentOf at h
  cases hv : pyGet v "update_intent" with
  | error e => rw [hv] at h; simp [Bind.bind, Except.bind] at h
  | ok x => exact pyGet_ok_obj hv

/-- C4 amended: an `item:updated` event with a falsy/absent `checked` flag
yields no completion record *provided* the `update_intent` marker (after
the `or ""`/`lower()` computation, which must not raise) is not
`"item_completed"`; with that marker present a record is produced even
though `checked` is false. -/
theorem claim_C4_amended (cache : Int → Option String) (data ev : JVal)
    (intent : String)
    (hev : evOf data = .ok ev)
    (hint : updateIntentOf ev = .ok intent)
    (hni : intent ≠ "item_completed")
    (hch : checkedOf ev = .ok false) :
    normalizeCompletion cache "item:updated" data = .ok none := by
  obtain ⟨dkvs, rfl⟩ := evOf_ok_obj hev
  obtain ⟨ekvs, hekvs⟩ := updateIntentOf_ok_obj hint
  subst hekvs
  unfold normalizeCompletion
  rw [hev]
  simp [Bind.bind, Except.bind, hint, hch, pyGet, hni, pure, Except.pure]

/-- Witness for C4 (amended) on a payload with `checked=false` and no
intent marker. -/
theorem claim_C4_witness :
    (evOf (.obj [("event_data", .obj [("checked", .bool false)])]) =
        .ok (.obj [("checked", .bool false)]) ∧
      updateIntentOf (.obj [("checked", .bool false)]) = .ok "" ∧
      checkedOf (.obj [("checked", .bool false)]) = .ok false) ∧
      normalizeCompletion (fun _ => none) "item:updated"
        (.obj [("event_data", .obj [("checked", .bool false)])]) = .ok none :=
  ⟨⟨rfl, rfl, rfl⟩,
   claim_C4_amended (fun _ => none) _ _ "" rfl rfl (by decide) rfl⟩

/-! ## C6: missing `event_name` -/

/-- C6 code evaluation: a validly signed request whose JSON body lacks
`event_name` falls through to the "Unhandled event" branch and is answered
200 with no side effects (only the delivery id is recorded), whereas the
claim — like the spec's error taxonomy and the repository's own
`test_invalid_payload` — expects a 400 client error. -/
theorem claim_C6_code_eval :
    webhook envA stEmpty reqNoEventName = (200, ⟨["d6"], ⟨[], [], []⟩⟩, []) ∧
      (200 : Nat) ≠ 400 :=
  ⟨rfl, by decide⟩

/-! ## C5: completion record with an empty task id -/

/-- C5 counterexample: an `item:completed` payload without an item id
normalizes to a record with empty `task_id`, and the handler — far from
discarding it — still issues the Beeminder datapoint (and a result comment
addressed to the empty task id) because the label matches; only the
acknowledgement comment is skipped. -/
theorem claim_C5_counterexample :
    normalizeCompletion envA.labelCache "item:completed" (bodyOf reqNoId) =
        .ok (some ⟨"", "X", ["beeminder"], [], .null⟩) ∧
      webhook envA stEmpty reqNoId =
        (200, ⟨["d5"], ⟨[":"], [], []⟩⟩,
          [.datapoint 1 "Todoist: X" none "complete::",
           .comment "" "Counted ✅"]) :=
  ⟨rfl, rfl⟩

/-- C5 amended: on a fresh (non-deduplicated) completion record whose
`task_id` is empty, the handler answers 200 and skips the acknowledgement
comment, but the record is not discarded: when the trigger label matches
(and credentials exist) the datapoint request is still issued, along with a
Counted/Failed comment addressed to the empty task id; only a non-matching
label yields no side effect. -/
theorem claim_C5_amended (env : Env) (cs : CoreState) (rec0 : CompletionRecord)
    (hid : rec0.task_id = "")
    (hfresh : completionKey rec0 ∉ cs.completions) :
    (completionPath env cs rec0).1 = 200 ∧
      (∀ c s, Effect.comment c s ∈ (completionPath env cs rec0).2.2 →
        c = "" ∧ (s = "Counted ✅" ∨ s = "Failed to count ❌")) ∧
      (labelMatch env rec0 = true → env.beeminderCreds = true →
        Effect.datapoint 1 ("Todoist: " ++ rec0.content)
          (iso_to_unix env.parseIso rec0.completed_at)
          ("complete:" ++ completionKey rec0) ∈ (completionPath env cs rec0).2.2) ∧
      (labelMatch env rec0 = false → (completionPath env cs rec0).2.2 = []) := by
  have hkey : completionKey rec0 ≠ "" := by
    unfold completionKey
    intro h
    have hlen := congrArg String.length h
    rw [String.length_append, String.length_append] at hlen
    have h1 : (":" : String).length = 1 := rfl
    have h2 : ("" : String).length = 0 := rfl
    omega
  rcases hpp : dedupePush cs.completions (completionKey rec0) MAX_COMPLETIONS with ⟨comps, dup⟩
  have hdup : dup = false := by
    have hf := dedupePush_fresh (m := MAX_COMPLETIONS) hkey hfresh
    rw [hpp] at hf
    exact hf
  subst hdup
  cases hc : env.beeminderCreds
  · have hpath : completionPath env cs rec0 =
        (200, { cs with completions := comps },
          if labelMatch env rec0 then [Effect.comment "" "Failed to count ❌"] else []) := by
      unfold completionPath
      simp only [hpp, hid]
      simp [postBeeminder, hc]
      split <;> rfl
    refine ⟨by rw [hpath], ?_, ?_, ?_⟩
    · intro c s hmem
      rw [hpath] at hmem
      by_cases hl : labelMatch env rec0
      · rw [if_pos hl] at hmem
        simp only [List.mem_singleton] at hmem
        cases hmem
        exact ⟨rfl, Or.inr rfl⟩
      · rw [if_neg hl] at hmem
        cases hmem
    · intro _ hcc
      exact absurd hcc (by simp [hc])
    · intro hl
      rw [hpath, if_neg (by simp [hl])]
  · have hpath : completionPath env cs rec0 =
        (200, { cs with completions := comps },
          if labelMatch env rec0 then
            [Effect.datapoint 1 ("Todoist: " ++ rec0.content)
              (iso_to_unix env.parseIso rec0.completed_at)
              ("complete:" ++ completionKey rec0),
             Effect.comment "" (if env.beeminderOk then "Counted ✅" else "Failed to count ❌")]
          else []) := by
      unfold completionPath
      simp only [hpp, hid]
      simp [postBeeminder, hc]
      split <;> rfl
    refine ⟨by rw [hpath], ?_, ?_, ?_⟩
    · intro c s hmem
      rw [hpath] at hmem
      by_cases hl : labelMatch env rec0
      · rw [if_pos hl] at hmem
        simp only [List.mem_cons, List.not_mem_nil, or_false] at hmem
        rcases hmem with hmem | hmem
        · cases hmem
        · cases hmem
          refine ⟨rfl, ?_⟩
          cases env.beeminderOk
          · exact Or.inr rfl
          · exact Or.inl rfl
      · rw [if_neg hl] at hmem
        cases hmem
    · intro hl _
      rw [hpath, if_pos hl]
      simp
    · intro hl
      rw [hpath, if_neg (by simp [hl])]

/-- Witness for C5 (amended) on a concrete empty-id record. -/
theorem claim_C5_witness :
    ((⟨"", "X", ["beeminder"], [], .null⟩ : CompletionRecord).task_id = "" ∧
        completionKey ⟨"", "X", ["beeminder"], [], .null⟩ ∉ ([] : List String)) ∧
      ((completionPath envA ⟨[], [], []⟩ ⟨"", "X", ["beeminder"], [], .null⟩).1 = 200 ∧
        (∀ c s, Effect.comment c s ∈
            (completionPath envA ⟨[], [], []⟩ ⟨"", "X", ["beeminder"], [], .null⟩).2.2 →
          c = "" ∧ (s = "Counted ✅" ∨ s = "Failed to count ❌")) ∧
        (labelMatch envA ⟨"", "X", ["beeminder"], [], .null⟩ = true →
          envA.beeminderCreds = true →
          Effect.datapoint 1 ("Todoist: " ++ "X") none ("complete:" ++ ":") ∈
            (completionPath envA ⟨[], [], []⟩ ⟨"", "X", ["beeminder"], [], .null⟩).2.2) ∧
        (labelMatch envA ⟨"", "X", ["beeminder"], [], .null⟩ = false →
          (completionPath envA ⟨[], [], []⟩ ⟨"", "X", ["beeminder"], [], .null⟩).2.2 = [])) :=
  ⟨⟨rfl, by simp⟩,
   claim_C5_amended envA ⟨[], [], []⟩ ⟨"", "X", ["beeminder"], [], .null⟩ rfl (by simp)⟩

/-! ## C8: elapsed-time merge on timer stop -/

/-- C8: stopping the running timer for task 12345 (started at instant 0,
stopped at 3088 s = 51 m 28 s) against a description containing
`(Total Time: 0h 49m 41s)` posts the elapsed-time comment and rewrites the
description to contain `(Total Time: 1h 41m 9s)` with the old marker gone;
and for any elapsed duration the merged description is the stripped old
description followed by the re-rendered sum of the parsed total (2981 s)
and the elapsed seconds. -/
theorem claim_C8_elapsed_merge :
    webhook envA stTimer (reqStop "67890" "12345") =
      (200, ⟨[], ⟨[], [], []⟩⟩,
        [.comment "12345" "Elapsed time: 0h 51m 28s",
         .updateDescription "12345" "Some other info (Total Time: 1h 41m 9s)"]) ∧
      containsSub "(Total Time: 1h 41m 9s)".toList
          "Some other info (Total Time: 1h 41m 9s)".toList = true ∧
      containsSub "(Total Time: 0h 49m 41s)".toList
          "Some other info (Total Time: 1h 41m 9s)".toList = false ∧
      (∀ e : Nat, (mergeTotal "Some other info (Total Time: 0h 49m 41s)" e).toList =
          "Some other info (Total Time: ".toList ++ ((renderHMS (2981 + e)).toList ++ [')'])) := by
  refine ⟨rfl, rfl, rfl, fun e => ?_⟩
  have h1 : mergeTotal "Some other info (Total Time: 0h 49m 41s)" e =
      "Some other info" ++ " " ++
        ("(Total Time: " ++ renderHMS (0 * 3600 + 49 * 60 + 41 + e) ++ ")") := rfl
  rw [h1, show 0 * 3600 + 49 * 60 + 41 + e = 2981 + e from by omega]
  simp [String.toList, String.data_append]

/-! ## C9: timer lifecycle -/

theorem truthy_str {s : String} (h : s ≠ "") : truthy (.str s) = true := by
  simp [truthy, h]

theorem lookupTimer_append_none {l : List (String × Nat)} {k : String} (v : Nat)
    (h : lookupTimer l k = none) : lookupTimer (l ++ [(k, v)]) k = some v := by
  induction l with
  | nil => simp [lookupTimer]
  | cons p rest ih =>
    obtain ⟨pk, pv⟩ := p
    unfold lookupTimer at h
    split at h
    · cases h
    · rename_i hne
      simp only [List.cons_append, lookupTimer]
      rw [if_neg hne]
      exact ih h

theorem filter_key_append_none {l : List (String × Nat)} {k : String} (v : Nat)
    (h : lookupTimer l k = none) :
    ((l ++ [(k, v)]).filter (fun p => p.1 == k)).length = 1 := by
  induction l with
  | nil => simp
  | cons p rest ih =>
    obtain ⟨pk, pv⟩ := p
    unfold lookupTimer at h
    split at h
    · cases h
    · rename_i hne
      simp only [List.cons_append, List.filter_cons]
      rw [if_neg (by simpa using hne)]
      exact ih h

/-- A signed request without delivery id is never de-duplicated: the
response is whatever the dispatch body produces. -/
theorem webhook_no_delivery (env : Env) (st : AppState) (req : Request)
    (hh : req.hmacHeader ≠ "")
    (hv : validate_hmac env.secret env.hmacB64 req.data req.hmacHeader = true)
    (hd : req.deliveryId = none) :
    webhook env st req =
      match webhookBody env st.core req with
      | .ok (code, cs, effs) => (code, ⟨st.deliveries, cs⟩, effs)
      | .error _ => (500, ⟨st.deliveries, st.core⟩, []) := by
  unfold webhook
  simp only [hh, hv, hd, Option.getD_none, dedupePush_empty_key, Bool.not_true,
    Bool.or_false, decide_False, Bool.false_or, Bool.false_eq_true, if_false, ite_false]

/-- The dispatch of a start-timer comment reaches the note branch. -/
theorem webhookBody_start (env : Env) (cs : CoreState) (uid tid : String) :
    webhookBody env cs (reqStart uid tid) =
      notePath env cs (bodyOf (reqStart uid tid)) (evdStart uid tid) := rfl

/-- The dispatch of a stop-timer comment reaches the note branch. -/
theorem webhookBody_stop (env : Env) (cs : CoreState) (uid tid : String) :
    webhookBody env cs (reqStop uid tid) =
      notePath env cs (bodyOf (reqStop uid tid)) (evdStop uid tid) := rfl

/-- Starting a timer for a key with no running entry appends the entry
stamped with the current instant and rewrites the description. -/
theorem notePath_start_fresh (env : Env) (cs : CoreState) (uid tid : String)
    (hu : uid ≠ "") (ht : tid ≠ "")
    (habs : lookupTimer cs.timers (uid ++ ":" ++ tid) = none) :
    notePath env cs (bodyOf (reqStart uid tid)) (evdStart uid tid) =
      .ok (200, { cs with timers := cs.timers ++ [(uid ++ ":" ++ tid, env.now)] },
        startEffects env tid) := by
  have htt := truthy_str ht
  have hut := truthy_str hu
  have e1 : orEmptyLower (.str "start timer") = .ok "start timer" := rfl
  have e2 : pyStripS "start timer" = "start timer" := rfl
  have e3 : containsSub "start timer".toList "start timer".toList = true := rfl
  unfold notePath
  simp only [evdStart, bodyOf, reqStart, Bind.bind, Except.bind, pyGetD, pyGet, lookupKV]
  simp [truthy, ht, hu, e1, e2, lookupKV, containsSub, List.isPrefixOf, habs,
    dedupePush_empty_key, pyStr, iso_to_unix, pyOr, startEffects, pure, Except.pure]
  try (cases hgd : env.getDescription tid <;> simp [hgd])

/-- Starting a timer while one is already running is a no-op. -/
theorem notePath_start_running (env : Env) (cs : CoreState) (uid tid : String) (v : Nat)
    (hu : uid ≠ "") (ht : tid ≠ "")
    (hrun : lookupTimer cs.timers (uid ++ ":" ++ tid) = some v) :
    notePath env cs (bodyOf (reqStart uid tid)) (evdStart uid tid) =
      .ok (200, cs, []) := by
  have htt := truthy_str ht
  have hut := truthy_str hu
  have e1 : orEmptyLower (.str "start timer") = .ok "start timer" := rfl
  have e2 : pyStripS "start timer" = "start timer" := rfl
  have e3 : containsSub "start timer".toList "start timer".toList = true := rfl
  unfold notePath
  simp only [evdStart, bodyOf, reqStart, Bind.bind, Except.bind, pyGetD, pyGet, lookupKV]
  simp [truthy, ht, hu, e1, e2, lookupKV, containsSub, List.isPrefixOf, hrun,
    dedupePush_empty_key, pyStr, iso_to_unix, pyOr, pure, Except.pure]

/-- Stopping a timer with no running entry posts a notice and changes
nothing. -/
theorem notePath_stop_absent (env : Env) (cs : CoreState) (uid tid : String)
    (hu : uid ≠ "") (ht : tid ≠ "")
    (habs : lookupTimer cs.timers (uid ++ ":" ++ tid) = none) :
    notePath env cs (bodyOf (reqStop uid tid)) (evdStop uid tid) =
      .ok (200, cs, [.comment tid "No timer found to stop."]) := by
  have htt := truthy_str ht
  have hut := truthy_str hu
  have e1 : orEmptyLower (.str "Stop Timer") = .ok "stop timer" := rfl
  have e2 : pyStripS "stop timer" = "stop timer" := rfl
  have e3 : containsSub "start timer".toList "stop timer".toList = false := rfl
  have e4 : containsSub "stop timer".toList "stop timer".toList = true := rfl
  unfold notePath
  simp only [evdStop, bodyOf, reqStop, Bind.bind, Except.bind, pyGetD, pyGet, lookupKV]
  simp [truthy, ht, hu, e1, e2, lookupKV, containsSub, List.isPrefixOf, habs,
    dedupePush_empty_key, pyStr, iso_to_unix, pyOr, pure, Except.pure]

/-- C9: for any (actor, task) key, issuing `start timer` twice leaves
exactly one timer entry for the key and keeps the start instant of the
first command (the second command is a no-op with no side effects), and
issuing `stop timer` while no entry exists posts a "No timer found to
stop." notice and leaves the whole state unchanged. -/
theorem claim_C9_timer_lifecycle (env1 env2 : Env) (st : AppState) (uid tid : String)
    (hu : uid ≠ "") (ht : tid ≠ "")
    (hv1 : validate_hmac env1.secret env1.hmacB64 [] "sig" = true)
    (hv2 : validate_hmac env2.secret env2.hmacB64 [] "sig" = true)
    (habs : lookupTimer st.core.timers (uid ++ ":" ++ tid) = none) :
    (webhook env1 st (reqStart uid tid)).1 = 200 ∧
      (webhook env1 st (reqStart uid tid)).2.1.core.timers =
        st.core.timers ++ [(uid ++ ":" ++ tid, env1.now)] ∧
      webhook env2 (webhook env1 st (reqStart uid tid)).2.1 (reqStart uid tid) =
        (200, (webhook env1 st (reqStart uid tid)).2.1, []) ∧
      lookupTimer (webhook env1 st (reqStart uid tid)).2.1.core.timers (uid ++ ":" ++ tid) =
        some env1.now ∧
      ((webhook env1 st (reqStart uid tid)).2.1.core.timers.filter
          (fun p => p.1 == uid ++ ":" ++ tid)).length = 1 ∧
      webhook env2 st (reqStop uid tid) =
        (200, st, [.comment tid "No timer found to stop."]) := by
  have h1 : webhook env1 st (reqStart uid tid) =
      (200, ⟨st.deliveries,
        { st.core with timers := st.core.timers ++ [(uid ++ ":" ++ tid, env1.now)] }⟩,
        startEffects env1 tid) := by
    rw [webhook_no_delivery env1 st (reqStart uid tid) (by simp [reqStart]) hv1 rfl,
      webhookBody_start, notePath_start_fresh env1 st.core uid tid hu ht habs]
  refine ⟨by rw [h1], by rw [h1], ?_, ?_, ?_, ?_⟩
  · rw [h1]
    rw [webhook_no_delivery env2 _ (reqStart uid tid) (by simp [reqStart]) hv2 rfl,
      webhookBody_start,
      notePath_start_running env2 _ uid tid env1.now hu ht
        (lookupTimer_append_none env1.now habs)]
  · rw [h1]
    exact lookupTimer_append_none env1.now habs
  · rw [h1]
    exact filter_key_append_none env1.now habs
  · rw [webhook_no_delivery env2 st (reqStop uid tid) (by simp [reqStop]) hv2 rfl,
      webhookBody_stop, notePath_stop_absent env2 st.core uid tid hu ht habs]

/-- Witness for C9 on concrete actors, tasks and environments. -/
theorem claim_C9_witness :
    (("67890" : String) ≠ "" ∧ ("12345" : String) ≠ "" ∧
        lookupTimer stEmpty.core.timers ("67890" ++ ":" ++ "12345") = none) ∧
      ((webhook envA stEmpty (reqStart "67890" "12345")).1 = 200 ∧
        (webhook envA stEmpty (reqStart "67890" "12345")).2.1.core.timers =
          stEmpty.core.timers ++ [("67890" ++ ":" ++ "12345", envA.now)] ∧
        webhook envB (webhook envA stEmpty (reqStart "67890" "12345")).2.1
            (reqStart "67890" "12345") =
          (200, (webhook envA stEmpty (reqStart "67890" "12345")).2.1, []) ∧
        lookupTimer (webhook envA stEmpty (reqStart "67890" "12345")).2.1.core.timers
            ("67890" ++ ":" ++ "12345") = some envA.now ∧
        ((webhook envA stEmpty (reqStart "67890" "12345")).2.1.core.timers.filter
            (fun p => p.1 == "67890" ++ ":" ++ "12345")).length = 1 ∧
        webhook envB stEmpty (reqStop "67890" "12345") =
          (200, stEmpty, [.comment "12345" "No timer found to stop."])) :=
  ⟨⟨by decide, by decide, rfl⟩,
   claim_C9_timer_lifecycle envA envB stEmpty "67890" "12345"
     (by decide) (by decide) rfl rfl rfl⟩

end TodoistTimer
